import Mathlib

/-
Verification development for the IntelliQru/logger Go package (logger.go).

Shallow embedding conventions:
- Go `int` is modelled as `Int` (the constants involved are small, no overflow).
- A provider (sink) is observable through `GetID()` only, so a provider value is
  modelled by the string it reports as its ID.  The registry `map[string]*ProviderInterface`
  is modelled as an association list from key to the stored provider's reported ID
  (`RegisterProvider` keys the entry by `p.GetID()`, so constructed registries map
  each key to itself; a general registry value is kept so that `addProvider`'s use
  of the looked-up provider's own reported ID stays visible).
- Side effects of dispatch (`sink.Log/Error/Fatal/Debug(msg)` calls and `os.Exit(1)`)
  are modelled as an explicit event trace (`List Event`); building the message is
  itself an event so that "returns without building a message" is observable.
- `makeMessage`'s stack inspection is modelled by passing the call stack as the
  ordered list of `"<file>:<line>"` frame locations above `makeMessage`
  (index 0 corresponds to call depth 2 in the source loop); `log.Output` renders a
  frame at depth `i` as `"<file>:<line>: \n"`, and renders `"???:0: \n"` when the
  requested depth exceeds the real stack (runtime.Caller failure convention).
  The wall clock and the cached host name are passed as parameters `ts`, `host`.
- `fmt.Sprintf` (Go standard library, not part of this repository) is abstracted:
  the formatted entry points take the substitution function as a parameter.
-/

namespace LoggerModel

/-- Severity levels from logger.go: `LEVEL_ERROR iota` (0), `LEVEL_INFO` (1), `LEVEL_DEBUG` (2). -/
def LEVEL_ERROR : Int := 0

/-- Level constant `LEVEL_INFO = 1`. -/
def LEVEL_INFO : Int := 1

/-- Level constant `LEVEL_DEBUG = 2`. -/
def LEVEL_DEBUG : Int := 2

/-- Trace mode `TRACE_TYPE_ONE = 0` (only the caller function). -/
def TRACE_TYPE_ONE : Int := 0

/-- Trace mode `TRACE_TYPE_ANY = 1` (full stack trace). -/
def TRACE_TYPE_ANY : Int := 1

/-- The provider registry `map[string]*ProviderInterface`, as an association list
from registry key to the stored provider's reported `GetID()`. -/
abbrev Registry := List (String × String)

/-- Lookup `l.providers[id]`, returning the stored provider's reported ID. -/
def lookupAssoc (P : Registry) (id : String) : Option String :=
  (P.find? (fun kv => kv.1 == id)).map (·.2)

/-- Go map assignment `m[k] = v`: replace the entry for `k` if present, else add it. -/
def insertAssoc (P : Registry) (k v : String) : Registry :=
  if P.any (fun kv => kv.1 == k) then
    P.map (fun kv => if kv.1 == k then (k, v) else kv)
  else
    P ++ [(k, v)]

/-- A registry is stable when every stored provider reports the key it is filed under.
`RegisterProvider` keys each entry by `p.GetID()`, so this holds for every registry
built through the API as long as providers report stable IDs. -/
def StableRegistry (P : Registry) : Prop := ∀ kv ∈ P, kv.2 = kv.1

instance (P : Registry) : Decidable (StableRegistry P) :=
  inferInstanceAs (Decidable (∀ kv ∈ P, kv.2 = kv.1))

/-- The `Logger` struct from logger.go. -/
structure Logger where
  providers : Registry
  logProviders : List String
  errorProviders : List String
  fatalProviders : List String
  debugProviders : List String
  level : Int
  traceType : Int
deriving DecidableEq

/-- Constructor `NewLogger()`: empty registry, empty routing lists, zero-valued level and trace mode. -/
def NewLogger : Logger :=
  { providers := []
    logProviders := []
    errorProviders := []
    fatalProviders := []
    debugProviders := []
    level := 0
    traceType := 0 }

/-- Method `SetTraceType`: rejects values other than the two enumerated modes with the error
"Unknown trace type." and leaves the logger unchanged; otherwise stores the mode.
The returned pair is (returned error, resulting logger state). -/
def SetTraceType (l : Logger) (val : Int) : Option String × Logger :=
  if val ≠ TRACE_TYPE_ONE ∧ val ≠ TRACE_TYPE_ANY then
    (some "Unknown trace type.", l)
  else
    (none, { l with traceType := val })

/-- Method `SetLevel`: stores the minimum severity level. -/
def SetLevel (l : Logger) (level : Int) : Logger :=
  { l with level := level }

/-- Method `RegisterProvider(p)`: stores the provider under the key `p.GetID()`.
A provider is modelled by its reported ID, so the stored value is `pid`. -/
def RegisterProvider (l : Logger) (pid : String) : Logger :=
  { l with providers := insertAssoc l.providers pid pid }

/-- The four dispatch categories of routing lists ("log", "error", "fatal", "debug").
The `panic("Wrong type of the provider.")` default branch of `addProvider`'s switch is
unreachable from the four public attach methods, which always pass one of these four. -/
inductive Category
  | log
  | error
  | fatal
  | debug
deriving DecidableEq

/-- The routing list selected by `addProvider`'s switch. -/
def catList (l : Logger) : Category → List String
  | .log => l.logProviders
  | .error => l.errorProviders
  | .fatal => l.fatalProviders
  | .debug => l.debugProviders

/-- Write back the routing list selected by `addProvider`'s switch (the `*IDs = ...`
mutation through the pointer chosen by the switch). -/
def setCat (l : Logger) : Category → List String → Logger
  | .log, xs => { l with logProviders := xs }
  | .error, xs => { l with errorProviders := xs }
  | .fatal, xs => { l with fatalProviders := xs }
  | .debug, xs => { l with debugProviders := xs }

/-- The loop body of `addProvider`: for each argument ID, look it up in the registry;
if found, append the provider's own reported ID unless `alreadyRegistred` finds it in
the current list; IDs not found in the registry are silently skipped. -/
def attachIds (P : Registry) (old : List String) : List String → List String
  | [] => old
  | id :: rest =>
    match lookupAssoc P id with
    | some pID =>
      if pID ∈ old then attachIds P old rest
      else attachIds P (old ++ [pID]) rest
    | none => attachIds P old rest

/-- Method `addProvider(providerType, providersIDs...)` restricted to the four reachable categories. -/
def addProvider (l : Logger) (cat : Category) (ids : List String) : Logger :=
  setCat l cat (attachIds l.providers (catList l cat) ids)

/-- Method `AddLogProvider(provIDs...)`. -/
def AddLogProvider (l : Logger) (ids : List String) : Logger := addProvider l .log ids

/-- Method `AddErrorProvider(provIDs...)`. -/
def AddErrorProvider (l : Logger) (ids : List String) : Logger := addProvider l .error ids

/-- Method `AddFatalProvider(provIDs...)`. -/
def AddFatalProvider (l : Logger) (ids : List String) : Logger := addProvider l .fatal ids

/-- Method `AddDebugProvider(provIDs...)`. -/
def AddDebugProvider (l : Logger) (ids : List String) : Logger := addProvider l .debug ids

/-- Modelled from the spec ("at the position of its first insertion", "relative order of
distinct IDs equals their registration order", "attaching an ID already present is a
no-op", "IDs not found in the registry are silently ignored"): the IDs appended to a
category list that already holds `old`, keeping only registered IDs at their first
occurrence. Used as the specification side of the `addProvider` characterisation. -/
def firstInsertions (P : Registry) (old : List String) : List String → List String
  | [] => []
  | id :: rest =>
    if (lookupAssoc P id).isSome ∧ id ∉ old then id :: firstInsertions P (old ++ [id]) rest
    else firstInsertions P old rest

/-- A configuration operation: registering a sink or attaching IDs to a category. -/
inductive LoggerOp
  | register (id : String)
  | attach (cat : Category) (ids : List String)

/-- Apply one configuration operation. -/
def applyOp (l : Logger) : LoggerOp → Logger
  | .register id => RegisterProvider l id
  | .attach cat ids => addProvider l cat ids

/-- Run a sequence of configuration operations from a freshly constructed logger. -/
def runOps (ops : List LoggerOp) : Logger := ops.foldl applyOp NewLogger

/-- The routing invariant: the registry is stable and every ID held by any of the four
category lists is a key of the registry. -/
def RoutingInv (l : Logger) : Prop :=
  StableRegistry l.providers
    ∧ ∀ cat : Category, ∀ id ∈ catList l cat, (lookupAssoc l.providers id).isSome = true

/-- Replacer `MESSAGE_REPLACER = strings.NewReplacer("\r", "", "\n", "\t")` applied to a
character list: both patterns are single characters, so the left-to-right scan is a
character map deleting every CR and turning every LF into a tab. -/
def msgReplace : List Char → List Char
  | [] => []
  | c :: rest =>
    if c = '\r' then msgReplace rest
    else if c = '\n' then '\t' :: msgReplace rest
    else c :: msgReplace rest

/-- Modelled from the spec ("replace every carriage return with nothing and every
newline with a tab character"): the per-character replacement used on the
specification side of the flattening claim. -/
def charRepl (c : Char) : List Char :=
  if c = '\r' then [] else if c = '\n' then ['\t'] else [c]

/-- Replacer `LOGGER_LINE_REPLACER = strings.NewReplacer(": ", "", " ", "", "\n", ", ")` applied
to a character list.  Go's Replacer scans left to right and at each position tries the
patterns in the order given, emitting the replacement of the first match. -/
def lineReplace : List Char → List Char
  | [] => []
  | c :: rest =>
    if c = ':' ∧ rest.head? = some ' ' then lineReplace rest.tail
    else if c = ' ' then lineReplace rest
    else if c = '\n' then ',' :: ' ' :: lineReplace rest
    else c :: lineReplace rest
termination_by l => l.length
decreasing_by
  · simp [List.length_tail]; omega
  · simp
  · simp
  · simp

/-- Go `strings.TrimRight(s, ", ")`: remove every trailing character belonging to the
cutset {',', ' '}. -/
def trimRightCS (l : List Char) : List Char :=
  (l.reverse.dropWhile (fun c => c = ',' || c = ' ')).reverse

/-- Concatenation of a list of character lists (a `bytes.Buffer` accumulating writes). -/
def concatAll : List (List Char) → List Char
  | [] => []
  | x :: xs => x ++ concatAll xs

/-- Join character lists with a separator (no separator before the first element). -/
def joinSep (sep : List Char) : List (List Char) → List Char
  | [] => []
  | [x] => x
  | x :: y :: rest => x ++ sep ++ joinSep sep (y :: rest)

/-- Go `strings.HasPrefix(s, pre)` on character lists (`hasPre pre s`). -/
def hasPre : List Char → List Char → Bool
  | [], _ => true
  | _ :: _, [] => false
  | p :: ps, c :: cs => p == c && hasPre ps cs

/-- The characters of the literal "logger.go:" (the module-frame filename test). -/
def loggerPre : List Char := ['l', 'o', 'g', 'g', 'e', 'r', '.', 'g', 'o', ':']

/-- The characters of the literal "testing.go:" (the boundary-frame filename test). -/
def testingPre : List Char := ['t', 'e', 's', 't', 'i', 'n', 'g', '.', 'g', 'o', ':']

/-- Flattening of the message parts in `makeMessage`: join the printed forms with
`MESSAGE_SEPARATOR` (a single space, no separator before the first part), then apply
`MESSAGE_REPLACER` to the joined string.  Parts are given by their printed string
forms (`fmt.Fprint`). -/
def flattenBody (parts : List String) : String :=
  ⟨msgReplace (joinSep [' '] (parts.map (·.data)))⟩

/-- Modelled from the spec ("concatenate their printed string forms, inserting a single
space between consecutive parts (no separator before the first); within each part's
printed text, replace every carriage return with nothing and every newline with a tab
character"): the specification side of the flattening claim. -/
def specFlattenBody (parts : List String) : String :=
  ⟨joinSep [' '] (parts.map (fun p => p.data.flatMap charRepl))⟩

/-- The frame location rendered at stack index `i` (call depth `i + 2` in the source
loop): out-of-range depths render as "???:0" per the `runtime.Caller` failure
convention used by `log.Output`. -/
def frameAt (stack : List String) (i : Nat) : String :=
  match stack[i]? with
  | some f => f
  | none => "???:0"

/-- The frame-recording loop of `makeMessage` (`for i := 2; i < 6`), with `fuel`
remaining iterations, reading frame `i` of the modelled stack each round: module
frames (prefix "logger.go:") are skipped, a boundary frame (prefix "testing.go:")
stops the walk, any other frame is recorded, and in `TRACE_TYPE_ONE` mode the walk
stops after the first recorded frame. -/
def walkFrames (stack : List String) (traceType : Int) : Nat → Nat → List String
  | 0, _ => []
  | fuel + 1, i =>
    let f := frameAt stack i
    if hasPre loggerPre f.data then walkFrames stack traceType fuel (i + 1)
    else if hasPre testingPre f.data then []
    else if traceType = TRACE_TYPE_ONE then [f]
    else f :: walkFrames stack traceType fuel (i + 1)

/-- The frames recorded by the `makeMessage` loop: four iterations starting at the
frame just above the builder. -/
def visitedFrames (stack : List String) (traceType : Int) : List String :=
  walkFrames stack traceType 4 0

/-- The frame locations at stack indices `i, i+1, ..., i+n-1`. -/
def examFrom (stack : List String) : Nat → Nat → List String
  | _, 0 => []
  | i, n + 1 => frameAt stack i :: examFrom stack (i + 1) n

/-- Boundary test used on the specification side: the frame is not a "testing.go:" frame. -/
def notBoundaryB (f : String) : Bool := !(hasPre testingPre f.data)

/-- Module test used on the specification side: the frame is not a "logger.go:" frame. -/
def notModuleB (f : String) : Bool := !(hasPre loggerPre f.data)

/-- Modelled from the spec (amended: the walk examines at most the first four frames
above the builder): the non-module frames among the examined ones, up to the boundary
frame. -/
def externalVisited (stack : List String) : List String :=
  ((examFrom stack 0 4).takeWhile notBoundaryB).filter notModuleB

/-- Modelled from the spec: the frames the location field should list — in SINGLE
mode at most the first of the external visited frames, in FULL mode all of them. -/
def specVisited (stack : List String) (mode : Int) : List String :=
  if mode = TRACE_TYPE_ONE then (externalVisited stack).take 1 else externalVisited stack

/-- Comma-space join of frame locations (the shape of the location field). -/
def commaJoin (xs : List String) : String :=
  ⟨joinSep [',', ' '] (xs.map (·.data))⟩

/-- A frame location of the well-formed `"<file>:<line>"` shape: nonempty and free of
spaces, newlines and commas (the characters the line replacer and the trailing trim
act on). -/
def cleanFrame (f : String) : Prop :=
  f.data ≠ [] ∧ ∀ c ∈ f.data, c ≠ ' ' ∧ c ≠ '\n' ∧ c ≠ ','

instance (f : String) : Decidable (cleanFrame f) :=
  inferInstanceAs (Decidable (f.data ≠ [] ∧ ∀ c ∈ f.data, c ≠ ' ' ∧ c ≠ '\n' ∧ c ≠ ','))

/-- The location field built by `makeMessage`: each recorded frame contributed
`"<file>:<line>: \n"` to `lineBuf`; the result is
`strings.TrimRight(LOGGER_LINE_REPLACER.Replace(lineBuf.String()), ", ")`. -/
def makeLine (stack : List String) (traceType : Int) : String :=
  ⟨trimRightCS (lineReplace (concatAll
    ((visitedFrames stack traceType).map (fun f => f.data ++ [':', ' ', '\n']))))⟩

/-- Remove every newline byte (`bytes.Replace(buf.Bytes(), []byte("\n"), []byte{}, -1)`). -/
def stripNL (l : List Char) : List Char := l.filter (fun c => c != '\n')

/-- Function `makeMessage(typeLog, err, traceType)`: prefix
`"<typeLog>: <timestamp> <host> <line>: "` followed by the replaced flattened body;
`log.Output` appends a trailing newline and the final `bytes.Replace` removes every
newline from the buffer. -/
def makeMessage (typeLog : String) (parts : List String) (traceType : Int)
    (stack : List String) (ts host : String) : String :=
  ⟨stripNL (typeLog.data ++ [':', ' '] ++ ts.data ++ [' '] ++ host.data ++ [' ']
    ++ (makeLine stack traceType).data ++ [':', ' ']
    ++ (flattenBody parts).data ++ ['\n'])⟩

/-- The four sink operations of `ProviderInterface`. -/
inductive SinkOp
  | logOp
  | errorOp
  | fatalOp
  | debugOp
deriving DecidableEq

/-- An observable effect of a dispatch call: building the formatted message, invoking
one sink operation, or terminating the process (`os.Exit`). -/
inductive Event
  | build (msg : String)
  | sinkCall (op : SinkOp) (id : String) (msg : String)
  | exitProcess (code : Int)
deriving DecidableEq

/-- The dispatch loop shared by the entry points: for each ID of the routing list in
order, look it up in the registry and invoke the sink's operation when found (IDs
missing from the registry are skipped). -/
def dispatch (P : Registry) (op : SinkOp) (ids : List String) (msg : String) : List Event :=
  ids.filterMap fun pID =>
    if (lookupAssoc P pID).isSome then some (Event.sinkCall op pID msg) else none

/-- Method `Log(messageParts...)`: gated on `l.level < LEVEL_INFO`; otherwise builds the
"LOG"-tagged message and dispatches to the log category. -/
def LogEvents (l : Logger) (parts stack : List String) (ts host : String) : List Event :=
  if l.level < LEVEL_INFO then []
  else
    let msg := makeMessage "LOG" parts l.traceType stack ts host
    Event.build msg :: dispatch l.providers SinkOp.logOp l.logProviders msg

/-- Method `Logf(format, params...)`: gated on `l.level < LEVEL_INFO` before the format
substitution (`sprintf` abstracts `fmt.Sprintf`); otherwise delegates to `Log` with
the single formatted part. -/
def LogfEvents (sprintf : String → List String → String) (l : Logger)
    (format : String) (params : List String) (stack : List String) (ts host : String) :
    List Event :=
  if l.level < LEVEL_INFO then []
  else LogEvents l [sprintf format params] stack ts host

/-- Method `Debug(messageParts...)`: gated on `l.level < LEVEL_DEBUG`; otherwise builds the
"DEBUG"-tagged message and dispatches to the debug category. -/
def DebugEvents (l : Logger) (parts stack : List String) (ts host : String) : List Event :=
  if l.level < LEVEL_DEBUG then []
  else
    let msg := makeMessage "DEBUG" parts l.traceType stack ts host
    Event.build msg :: dispatch l.providers SinkOp.debugOp l.debugProviders msg

/-- Method `Debugf(format, params...)`: gated on `l.level < LEVEL_DEBUG` before the format
substitution; otherwise delegates to `Debug` with the single formatted part. -/
def DebugfEvents (sprintf : String → List String → String) (l : Logger)
    (format : String) (params : List String) (stack : List String) (ts host : String) :
    List Event :=
  if l.level < LEVEL_DEBUG then []
  else DebugEvents l [sprintf format params] stack ts host

/-- Method `Error(messageParts...)`: ungated; builds the "ERROR"-tagged message and
dispatches to the error category. -/
def ErrorEvents (l : Logger) (parts stack : List String) (ts host : String) : List Event :=
  let msg := makeMessage "ERROR" parts l.traceType stack ts host
  Event.build msg :: dispatch l.providers SinkOp.errorOp l.errorProviders msg

/-- Method `Errorf(format, params...)`: ungated; delegates to `Error` with the single
formatted part. -/
def ErrorfEvents (sprintf : String → List String → String) (l : Logger)
    (format : String) (params : List String) (stack : List String) (ts host : String) :
    List Event :=
  ErrorEvents l [sprintf format params] stack ts host

/-- Method `Fatal(messageParts...)`: ungated; builds the "FATAL"-tagged message, dispatches
to the fatal category, then calls `os.Exit(1)`. -/
def FatalEvents (l : Logger) (parts stack : List String) (ts host : String) : List Event :=
  let msg := makeMessage "FATAL" parts l.traceType stack ts host
  (Event.build msg :: dispatch l.providers SinkOp.fatalOp l.fatalProviders msg)
    ++ [Event.exitProcess 1]

/-- Method `Fatalf(format, params...)`: ungated; delegates to `Fatal` with the single
formatted part. -/
def FatalfEvents (sprintf : String → List String → String) (l : Logger)
    (format : String) (params : List String) (stack : List String) (ts host : String) :
    List Event :=
  FatalEvents l [sprintf format params] stack ts host

/-! ### Helper lemmas about the routing state -/

theorem setCat_catList_self (l : Logger) (cat : Category) : setCat l cat (catList l cat) = l := by
  cases cat <;> rfl

theorem catList_setCat_same (l : Logger) (cat : Category) (xs : List String) :
    catList (setCat l cat xs) cat = xs := by
  cases cat <;> rfl

theorem catList_setCat_other (l : Logger) {cat cat' : Category} (h : cat' ≠ cat)
    (xs : List String) : catList (setCat l cat xs) cat' = catList l cat' := by
  cases cat <;> cases cat' <;> first | rfl | exact absurd rfl h

theorem setCat_providers (l : Logger) (cat : Category) (xs : List String) :
    (setCat l cat xs).providers = l.providers := by
  cases cat <;> rfl

theorem setCat_setCat (l : Logger) (cat : Category) (xs ys : List String) :
    setCat (setCat l cat xs) cat ys = setCat l cat ys := by
  cases cat <;> rfl

theorem lookup_stable {P : Registry} (hP : StableRegistry P) {id v : String}
    (h : lookupAssoc P id = some v) : v = id := by
  unfold lookupAssoc at h
  cases hf : P.find? (fun kv => kv.1 == id) with
  | none => rw [hf] at h; simp at h
  | some kv =>
    rw [hf] at h
    simp only [Option.map_some', Option.some.injEq] at h
    have hmem : kv ∈ P := List.mem_of_find?_eq_some hf
    have hpred := List.find?_some hf
    have hkey : kv.1 = id := by simpa using hpred
    have hval : kv.2 = kv.1 := hP kv hmem
    rw [← h, hval, hkey]

theorem attachIds_append (P : Registry) (old ids₁ ids₂ : List String) :
    attachIds P old (ids₁ ++ ids₂) = attachIds P (attachIds P old ids₁) ids₂ := by
  induction ids₁ generalizing old with
  | nil => rfl
  | cons id rest ih =>
    simp only [List.cons_append, attachIds]
    cases lookupAssoc P id with
    | none => exact ih old
    | some pID =>
      by_cases hmem : pID ∈ old
      · simp only [if_pos hmem]; exact ih old
      · simp only [if_neg hmem]; exact ih (old ++ [pID])

theorem attachIds_eq_append {P : Registry} (hP : StableRegistry P) :
    ∀ (ids old : List String), attachIds P old ids = old ++ firstInsertions P old ids := by
  intro ids
  induction ids with
  | nil => intro old; simp [attachIds, firstInsertions]
  | cons id rest ih =>
    intro old
    simp only [attachIds, firstInsertions]
    cases hl : lookupAssoc P id with
    | none => simp [hl, ih old]
    | some pID =>
      have hpid : pID = id := lookup_stable hP hl
      subst hpid
      by_cases hmem : pID ∈ old
      · simp [hl, hmem, ih old]
      · simp only [hl, if_neg hmem, Option.isSome_some, true_and, if_pos hmem,
          if_pos (show ¬pID ∈ old from hmem)]
        rw [ih (old ++ [pID])]
        simp

theorem mem_firstInsertions {P : Registry} :
    ∀ (ids old : List String) (x : String), x ∈ firstInsertions P old ids →
      x ∉ old ∧ (lookupAssoc P x).isSome = true ∧ x ∈ ids := by
  intro ids
  induction ids with
  | nil => intro old x hx; simp [firstInsertions] at hx
  | cons id rest ih =>
    intro old x hx
    by_cases hc : (lookupAssoc P id).isSome = true ∧ id ∉ old
    · rw [firstInsertions, if_pos hc] at hx
      rcases List.mem_cons.1 hx with rfl | hx'
      · exact ⟨hc.2, hc.1, List.mem_cons_self _ _⟩
      · obtain ⟨hnot, hsome, hmem⟩ := ih (old ++ [id]) x hx'
        refine ⟨fun hmo => hnot (List.mem_append_left _ hmo), hsome, List.mem_cons_of_mem _ hmem⟩
    · rw [firstInsertions, if_neg hc] at hx
      obtain ⟨hnot, hsome, hmem⟩ := ih old x hx
      exact ⟨hnot, hsome, List.mem_cons_of_mem _ hmem⟩

theorem nodup_firstInsertions {P : Registry} :
    ∀ (ids old : List String), (firstInsertions P old ids).Nodup := by
  intro ids
  induction ids with
  | nil => intro old; simp [firstInsertions]
  | cons id rest ih =>
    intro old
    by_cases hc : (lookupAssoc P id).isSome = true ∧ id ∉ old
    · rw [firstInsertions, if_pos hc]
      refine List.nodup_cons.2 ⟨fun hmem => ?_, ih (old ++ [id])⟩
      have := (mem_firstInsertions _ _ _ hmem).1
      exact this (List.mem_append_right _ (List.mem_singleton.2 rfl))
    · rw [firstInsertions, if_neg hc]; exact ih old

/-! ### Claim theorems for the router -/

/-- Claim C4: with a stable registry, attaching IDs to a category appends exactly the
registered IDs not already present, at their first occurrence and in registration
order (so insertion is idempotent and each ID occurs at most once); uniqueness of the
list is preserved, and consecutive attach calls compose into a single one. -/
theorem addProvider_idempotent_ordered (l : Logger) (cat : Category) (ids : List String)
    (hP : StableRegistry l.providers) :
    catList (addProvider l cat ids) cat
        = catList l cat ++ firstInsertions l.providers (catList l cat) ids
      ∧ ((catList l cat).Nodup → (catList (addProvider l cat ids) cat).Nodup)
      ∧ ∀ ids₂, addProvider (addProvider l cat ids) cat ids₂
          = addProvider l cat (ids ++ ids₂) := by
  have hmain : catList (addProvider l cat ids) cat
      = catList l cat ++ firstInsertions l.providers (catList l cat) ids := by
    rw [addProvider, catList_setCat_same, attachIds_eq_append hP]
  refine ⟨hmain, ?_, ?_⟩
  · intro hnd
    rw [hmain]
    refine List.nodup_append.2 ⟨hnd, nodup_firstInsertions _ _, ?_⟩
    intro a ha ha'
    exact (mem_firstInsertions _ _ _ ha').1 ha
  · intro ids₂
    simp only [addProvider, setCat_setCat, setCat_providers, catList_setCat_same,
      attachIds_append]

/-- Witness for C4 at a concrete logger: one registered provider "a", attached twice
together with an unregistered "b". -/
theorem addProvider_idempotent_ordered_witness :
    StableRegistry (RegisterProvider NewLogger "a").providers
      ∧ catList (addProvider (RegisterProvider NewLogger "a") Category.log ["a", "a", "b"])
            Category.log
          = catList (RegisterProvider NewLogger "a") Category.log
            ++ firstInsertions (RegisterProvider NewLogger "a").providers
                (catList (RegisterProvider NewLogger "a") Category.log) ["a", "a", "b"] :=
  ⟨by decide,
    (addProvider_idempotent_ordered (RegisterProvider NewLogger "a") Category.log
      ["a", "a", "b"] (by decide)).1⟩

/-- Claim C8: attaching an ID that is not a key of the registry leaves the logger
completely unchanged for each of the four attach entry points — the category list
keeps its length and contents, nothing is raised, and nothing is deferred. -/
theorem attach_unregistered_noop (l : Logger) (id : String)
    (h : lookupAssoc l.providers id = none) :
    AddLogProvider l [id] = l ∧ AddErrorProvider l [id] = l
      ∧ AddFatalProvider l [id] = l ∧ AddDebugProvider l [id] = l := by
  have hattach : ∀ old, attachIds l.providers old [id] = old := by
    intro old; simp [attachIds, h]
  refine ⟨?_, ?_, ?_, ?_⟩ <;>
    simp [AddLogProvider, AddErrorProvider, AddFatalProvider, AddDebugProvider,
      addProvider, hattach, setCat_catList_self]

/-- Witness for C8: the ID "ghost" is not registered, and attaching it changes nothing. -/
theorem attach_unregistered_noop_witness :
    lookupAssoc (RegisterProvider NewLogger "a").providers "ghost" = none
      ∧ AddLogProvider (RegisterProvider NewLogger "a") ["ghost"]
          = RegisterProvider NewLogger "a" :=
  ⟨by decide,
    (attach_unregistered_noop (RegisterProvider NewLogger "a") "ghost" (by decide)).1⟩

theorem lookup_isSome_iff (P : Registry) (id : String) :
    (lookupAssoc P id).isSome = true ↔ id ∈ P.map (·.1) := by
  unfold lookupAssoc
  rw [Option.isSome_map']
  rw [show ((P.find? (fun kv => kv.1 == id)).isSome = true)
      ↔ (P.find? (fun kv => kv.1 == id)).isSome from Iff.rfl]
  rw [List.find?_isSome]
  constructor
  · rintro ⟨kv, hmem, hpred⟩
    exact List.mem_map.2 ⟨kv, hmem, eq_of_beq hpred⟩
  · intro hmem
    rcases List.mem_map.1 hmem with ⟨kv, hkv, heq⟩
    exact ⟨kv, hkv, beq_iff_eq.2 heq⟩

theorem insertAssoc_stable {P : Registry} (hP : StableRegistry P) (k : String) :
    StableRegistry (insertAssoc P k k) := by
  unfold insertAssoc
  split
  · intro kv hkv
    rcases List.mem_map.1 hkv with ⟨kv', hmem', heq⟩
    by_cases hb : kv'.1 == k
    · rw [if_pos hb] at heq; rw [← heq]
    · rw [if_neg hb] at heq; rw [← heq]; exact hP kv' hmem'
  · intro kv hkv
    rcases List.mem_append.1 hkv with hmem | hmem
    · exact hP kv hmem
    · rw [List.mem_singleton.1 hmem]

theorem insertAssoc_lookup_mono {P : Registry} {id : String} (k v : String)
    (h : (lookupAssoc P id).isSome = true) :
    (lookupAssoc (insertAssoc P k v) id).isSome = true := by
  rw [lookup_isSome_iff] at h ⊢
  unfold insertAssoc
  split
  · have : (P.map (fun kv => if kv.1 == k then (k, v) else kv)).map (·.1) = P.map (·.1) := by
      rw [List.map_map]
      refine List.map_congr_left ?_
      intro kv _
      by_cases hb : kv.1 == k
      · simp only [Function.comp_apply, if_pos hb]
        exact (eq_of_beq hb).symm
      · simp only [Function.comp_apply, if_neg hb]
    rw [this]; exact h
  · rw [List.map_append]; exact List.mem_append_left _ h

theorem catList_register (l : Logger) (pid : String) (cat : Category) :
    catList (RegisterProvider l pid) cat = catList l cat := by
  cases cat <;> rfl

theorem routingInv_applyOp {l : Logger} (h : RoutingInv l) (op : LoggerOp) :
    RoutingInv (applyOp l op) := by
  obtain ⟨hstable, hlists⟩ := h
  cases op with
  | register pid =>
    refine ⟨insertAssoc_stable hstable pid, ?_⟩
    intro cat id hid
    simp only [applyOp] at hid ⊢
    rw [catList_register] at hid
    exact insertAssoc_lookup_mono pid pid (hlists cat id hid)
  | attach cat ids =>
    have hprov : (addProvider l cat ids).providers = l.providers := by
      rw [addProvider, setCat_providers]
    constructor
    · simp only [applyOp, hprov]; exact hstable
    · intro cat' id hid
      simp only [applyOp, hprov] at hid ⊢
      by_cases hcat : cat' = cat
      · subst hcat
        rw [addProvider, catList_setCat_same, attachIds_eq_append hstable] at hid
        rcases List.mem_append.1 hid with hold | hnew
        · exact hlists cat' id hold
        · exact (mem_firstInsertions _ _ _ hnew).2.1
      · rw [addProvider, catList_setCat_other l hcat] at hid
        exact hlists cat' id hid

theorem routingInv_foldl : ∀ (ops : List LoggerOp) (l : Logger), RoutingInv l →
    RoutingInv (ops.foldl applyOp l) := by
  intro ops
  induction ops with
  | nil => intro l hl; exact hl
  | cons op rest ih =>
    intro l hl
    rw [List.foldl_cons]
    exact ih _ (routingInv_applyOp hl op)

theorem routingInv_runOps (ops : List LoggerOp) : RoutingInv (runOps ops) := by
  have hbase : RoutingInv NewLogger := by
    refine ⟨by intro kv hkv; simp [NewLogger] at hkv, ?_⟩
    intro cat id hid
    cases cat <;> simp [catList, NewLogger] at hid
  exact routingInv_foldl ops NewLogger hbase

theorem dispatch_eq_map {P : Registry} : ∀ {ids : List String},
    (∀ id ∈ ids, (lookupAssoc P id).isSome = true) → ∀ (op : SinkOp) (msg : String),
    dispatch P op ids msg = ids.map (fun id => Event.sinkCall op id msg) := by
  intro ids
  induction ids with
  | nil => intro _ op msg; rfl
  | cons id rest ih =>
    intro h op msg
    have hid : (lookupAssoc P id).isSome = true := h id (List.mem_cons_self _ _)
    have hf : (fun pID => if (lookupAssoc P pID).isSome then
        some (Event.sinkCall op pID msg) else none) id = some (Event.sinkCall op id msg) := by
      simp [hid]
    have ih' := ih (fun x hx => h x (List.mem_cons_of_mem _ hx)) op msg
    rw [dispatch] at ih' ⊢
    simp only [List.filterMap_cons, hf, List.map_cons, ih']

/-- Claim C10: starting from a fresh logger, after any sequence of register and attach
operations every ID in any of the four category lists is a key of the registry, and
consequently the dispatch loop over any category list skips no listed sink: it calls
every listed sink exactly in list order. -/
theorem routing_lookup_total (ops : List LoggerOp) :
    (∀ cat : Category, ∀ id ∈ catList (runOps ops) cat,
        (lookupAssoc (runOps ops).providers id).isSome = true)
      ∧ ∀ (cat : Category) (op : SinkOp) (msg : String),
          dispatch (runOps ops).providers op (catList (runOps ops) cat) msg
            = (catList (runOps ops) cat).map (fun id => Event.sinkCall op id msg) := by
  have h := routingInv_runOps ops
  exact ⟨h.2, fun cat op msg => dispatch_eq_map (h.2 cat) op msg⟩

/-- Witness for C10: after registering "a" and attaching it to the log category, "a"
is in the log list and its registry lookup succeeds. -/
theorem routing_lookup_total_witness :
    "a" ∈ catList (runOps [LoggerOp.register "a", LoggerOp.attach Category.log ["a"]])
        Category.log
      ∧ (lookupAssoc (runOps [LoggerOp.register "a",
            LoggerOp.attach Category.log ["a"]]).providers "a").isSome = true :=
  ⟨by decide,
    (routing_lookup_total [LoggerOp.register "a", LoggerOp.attach Category.log ["a"]]).1
      Category.log "a" (by decide)⟩

/-- Claim C9: `SetTraceType` rejects every value other than the two enumerated trace
modes with the invalid-configuration error and leaves the state unchanged, and stores
either enumerated mode without error. -/
theorem setTraceType_spec (l : Logger) (v : Int) :
    ((v ≠ TRACE_TYPE_ONE ∧ v ≠ TRACE_TYPE_ANY) →
        SetTraceType l v = (some "Unknown trace type.", l))
      ∧ ((v = TRACE_TYPE_ONE ∨ v = TRACE_TYPE_ANY) →
        SetTraceType l v = (none, { l with traceType := v })) := by
  constructor
  · intro h; rw [SetTraceType, if_pos h]
  · intro h
    have h' : ¬(v ≠ TRACE_TYPE_ONE ∧ v ≠ TRACE_TYPE_ANY) := by
      rcases h with h | h <;> simp [h]
    rw [SetTraceType, if_neg h']

/-- Witness for C9: the invalid value 5 is rejected and leaves the fresh logger
unchanged; the valid value 1 is stored. -/
theorem setTraceType_spec_witness :
    ((5 : Int) ≠ TRACE_TYPE_ONE ∧ (5 : Int) ≠ TRACE_TYPE_ANY)
      ∧ SetTraceType NewLogger 5 = (some "Unknown trace type.", NewLogger)
      ∧ SetTraceType NewLogger 1 = (none, { NewLogger with traceType := 1 }) :=
  ⟨by decide, (setTraceType_spec NewLogger 5).1 (by decide),
    (setTraceType_spec NewLogger 1).2 (Or.inr rfl)⟩

/-! ### Message flattening -/

theorem msgReplace_append : ∀ a b : List Char, msgReplace (a ++ b) = msgReplace a ++ msgReplace b := by
  intro a b
  induction a with
  | nil => rfl
  | cons c rest ih =>
    by_cases hr : c = '\r'
    · simp [msgReplace, hr, ih]
    · by_cases hn : c = '\n'
      · simp [msgReplace, hr, hn, ih]
      · simp [msgReplace, hr, hn, ih]

theorem msgReplace_eq_flatMap : ∀ l : List Char, msgReplace l = l.flatMap charRepl := by
  intro l
  induction l with
  | nil => rfl
  | cons c rest ih =>
    by_cases hr : c = '\r'
    · simp [msgReplace, charRepl, hr, ih]
    · by_cases hn : c = '\n'
      · simp [msgReplace, charRepl, hr, hn, ih]
      · simp [msgReplace, charRepl, hr, hn, ih]

theorem msgReplace_joinSep : ∀ chunks : List (List Char),
    msgReplace (joinSep [' '] chunks) = joinSep [' '] (chunks.map msgReplace) := by
  intro chunks
  induction chunks with
  | nil => rfl
  | cons x rest ih =>
    cases rest with
    | nil => rfl
    | cons y rest' =>
      simp only [joinSep, List.map_cons] at ih ⊢
      rw [msgReplace_append, msgReplace_append]
      rw [show msgReplace [' '] = [' '] from rfl]
      rw [ih]

/-- Claim C5: the flattened message body of `makeMessage` equals the parts' printed
forms joined by exactly one space with every carriage return removed and every
newline replaced by a single tab, computed part by part as the spec describes; in
particular the parts `["line1\nline2", "line3\r\nline4", "text1", "text2", 10]`
(the number printing as "10") flatten to `"line1\tline2 line3\tline4 text1 text2 10"`. -/
theorem flatten_body_spec (parts : List String) :
    flattenBody parts = specFlattenBody parts
      ∧ flattenBody ["line1\nline2", "line3\r\nline4", "text1", "text2", "10"]
          = "line1\tline2 line3\tline4 text1 text2 10" := by
  constructor
  · rw [flattenBody, specFlattenBody]
    rw [msgReplace_joinSep, List.map_map]
    congr 2
    exact List.map_congr_left (fun p _ => msgReplace_eq_flatMap p.data)
  · decide

/-- Claim C7 counterexample: the part "a\n\nb" flattens to "a\t\tb" — the
newline-newline sequence becomes two tabs, not the single tab the claim states
(while "\r\n" does collapse to a single tab). -/
theorem flatten_double_newline_counterexample :
    flattenBody ["a\n\nb"] = "a\t\tb"
      ∧ flattenBody ["a\n\nb"] ≠ "a\tb"
      ∧ flattenBody ["a\r\nb"] = "a\tb" := by
  refine ⟨by decide, by decide, by decide⟩

/-- Claim C7 (amended): in the flattened body every carriage-return-newline sequence
collapses to exactly one tab, while a newline-newline sequence becomes exactly two
tabs — each newline is replaced by one tab and each carriage return is removed. -/
theorem crlf_and_double_newline_tabs (a b : String) :
    flattenBody [a ++ "\r\n" ++ b] = ⟨msgReplace a.data ++ '\t' :: msgReplace b.data⟩
      ∧ flattenBody [a ++ "\n\n" ++ b]
          = ⟨msgReplace a.data ++ '\t' :: '\t' :: msgReplace b.data⟩ := by
  have hsingle : ∀ x : String, flattenBody [x] = ⟨msgReplace x.data⟩ := fun x => rfl
  constructor
  · rw [hsingle]
    rw [String.data_append, String.data_append]
    rw [show ("\r\n" : String).data = ['\r', '\n'] from rfl]
    rw [msgReplace_append, msgReplace_append]
    rw [show msgReplace ['\r', '\n'] = ['\t'] from rfl]
    simp
  · rw [hsingle]
    rw [String.data_append, String.data_append]
    rw [show ("\n\n" : String).data = ['\n', '\n'] from rfl]
    rw [msgReplace_append, msgReplace_append]
    rw [show msgReplace ['\n', '\n'] = ['\t', '\t'] from rfl]
    simp

/-! ### Dispatch entry points -/

theorem stripNL_append (a b : List Char) : stripNL (a ++ b) = stripNL a ++ stripNL b :=
  List.filter_append a b

theorem makeMessage_data (typeLog : String) (parts : List String) (tt : Int)
    (stack : List String) (ts host : String) :
    (makeMessage typeLog parts tt stack ts host).data
      = stripNL typeLog.data ++ [':', ' '] ++ stripNL ts.data ++ [' '] ++ stripNL host.data
        ++ [' '] ++ stripNL (makeLine stack tt).data ++ [':', ' ']
        ++ stripNL (flattenBody parts).data := by
  show stripNL (typeLog.data ++ [':', ' '] ++ ts.data ++ [' '] ++ host.data ++ [' ']
      ++ (makeLine stack tt).data ++ [':', ' '] ++ (flattenBody parts).data ++ ['\n']) = _
  simp only [stripNL, List.filter_append]
  have h1 : List.filter (fun c => c != '\n') [':', ' '] = [':', ' '] := by decide
  have h2 : List.filter (fun c => c != '\n') [' '] = [' '] := by decide
  have h3 : List.filter (fun c => c != '\n') ['\n'] = ([] : List Char) := by decide
  rw [h1, h2, h3]
  simp

/-- Claim C2: when the configured level is below the INFO threshold, `Log` and `Logf`
produce no events at all (no message build, no sink call), and when it is below the
DEBUG threshold the same holds for `Debug` and `Debugf`; the formatted variants are
silent for every substitution function, i.e. without the substitution being used. -/
theorem gated_below_threshold (sprintf : String → List String → String) (l : Logger)
    (parts : List String) (format : String) (params : List String)
    (stack : List String) (ts host : String) :
    (l.level < LEVEL_INFO → LogEvents l parts stack ts host = []
        ∧ LogfEvents sprintf l format params stack ts host = [])
      ∧ (l.level < LEVEL_DEBUG → DebugEvents l parts stack ts host = []
        ∧ DebugfEvents sprintf l format params stack ts host = []) := by
  constructor
  · intro h
    exact ⟨by simp only [LogEvents, if_pos h], by simp only [LogfEvents, if_pos h]⟩
  · intro h
    exact ⟨by simp only [DebugEvents, if_pos h], by simp only [DebugfEvents, if_pos h]⟩

/-- Witness for C2: a fresh logger has level 0 (below INFO and DEBUG) and all four
gated entry points are silent on it. -/
theorem gated_below_threshold_witness :
    NewLogger.level < LEVEL_INFO
      ∧ LogEvents NewLogger ["x"] [] "t" "h" = []
      ∧ DebugEvents NewLogger ["x"] [] "t" "h" = [] :=
  ⟨by decide,
    ((gated_below_threshold (fun f _ => f) NewLogger ["x"] "f" [] [] "t" "h").1
      (by decide)).1,
    ((gated_below_threshold (fun f _ => f) NewLogger ["x"] "f" [] [] "t" "h").2
      (by decide)).1⟩

/-- Claim C3: `Error` (and `Errorf`, which delegates to it) always builds a message
tagged "ERROR" and dispatches it to every sink of the error category in registration
order, for every logger state — in particular for every configured level, including
the most restrictive ERROR-only tier, since no level gate is consulted. -/
theorem error_dispatch_ungated (sprintf : String → List String → String) (l : Logger)
    (parts stack : List String) (ts host : String) (format : String)
    (params : List String) :
    ((∀ id ∈ l.errorProviders, (lookupAssoc l.providers id).isSome = true) →
        ErrorEvents l parts stack ts host
          = Event.build (makeMessage "ERROR" parts l.traceType stack ts host)
            :: l.errorProviders.map (fun id =>
                Event.sinkCall SinkOp.errorOp id
                  (makeMessage "ERROR" parts l.traceType stack ts host)))
      ∧ (∃ r : List Char,
          (makeMessage "ERROR" parts l.traceType stack ts host).data
            = ("ERROR: ").data ++ r)
      ∧ ErrorfEvents sprintf l format params stack ts host
          = ErrorEvents l [sprintf format params] stack ts host := by
  refine ⟨?_, ?_, rfl⟩
  · intro h
    simp only [ErrorEvents]
    rw [dispatch_eq_map h]
  · refine ⟨stripNL ts.data ++ [' '] ++ stripNL host.data ++ [' ']
      ++ stripNL (makeLine stack l.traceType).data ++ [':', ' ']
      ++ stripNL (flattenBody parts).data, ?_⟩
    rw [makeMessage_data]
    have htl : stripNL ("ERROR").data = ("ERROR").data := by decide
    have hsplit : ("ERROR: ").data = ("ERROR").data ++ [':', ' '] := by decide
    rw [htl, hsplit]
    simp [List.append_assoc]

/-- Witness for C3: a logger with level set to the most restrictive tier (ERROR = 0)
and one registered error sink dispatches to it. -/
theorem error_dispatch_ungated_witness :
    (∀ id ∈ (AddErrorProvider (RegisterProvider NewLogger "a") ["a"]).errorProviders,
        (lookupAssoc (AddErrorProvider (RegisterProvider NewLogger "a") ["a"]).providers
          id).isSome = true)
      ∧ ErrorEvents (AddErrorProvider (RegisterProvider NewLogger "a") ["a"]) ["m"] [] "t" "h"
          = Event.build (makeMessage "ERROR" ["m"]
              (AddErrorProvider (RegisterProvider NewLogger "a") ["a"]).traceType [] "t" "h")
            :: (AddErrorProvider (RegisterProvider NewLogger "a") ["a"]).errorProviders.map
              (fun id => Event.sinkCall SinkOp.errorOp id
                (makeMessage "ERROR" ["m"]
                  (AddErrorProvider (RegisterProvider NewLogger "a") ["a"]).traceType
                  [] "t" "h")) :=
  ⟨by decide,
    (error_dispatch_ungated (fun f _ => f)
      (AddErrorProvider (RegisterProvider NewLogger "a") ["a"]) ["m"] [] "t" "h" "f" []).1
      (by decide)⟩

/-- Claim C1: `Fatal` (and `Fatalf`, which delegates to it) builds the "FATAL"-tagged
message, invokes the Fatal operation of every sink of the fatal category in
registration order, and only after all of them emits the process termination with
exit status 1; the termination event is last unconditionally — for every logger state
(hence every configured level) and even when the fatal list is empty. -/
theorem fatal_dispatch_then_exit (sprintf : String → List String → String) (l : Logger)
    (parts stack : List String) (ts host : String) (format : String)
    (params : List String) :
    ((∀ id ∈ l.fatalProviders, (lookupAssoc l.providers id).isSome = true) →
        FatalEvents l parts stack ts host
          = (Event.build (makeMessage "FATAL" parts l.traceType stack ts host)
              :: l.fatalProviders.map (fun id =>
                  Event.sinkCall SinkOp.fatalOp id
                    (makeMessage "FATAL" parts l.traceType stack ts host)))
            ++ [Event.exitProcess 1])
      ∧ (FatalEvents l parts stack ts host).getLast? = some (Event.exitProcess 1)
      ∧ FatalfEvents sprintf l format params stack ts host
          = FatalEvents l [sprintf format params] stack ts host := by
  refine ⟨?_, ?_, rfl⟩
  · intro h
    simp only [FatalEvents]
    rw [dispatch_eq_map h]
  · simp only [FatalEvents]
    exact List.getLast?_concat _

/-- Witness for C1: a logger with one registered fatal sink (and the empty-list fresh
logger for the unconditional-exit part) produces the dispatch-then-exit trace. -/
theorem fatal_dispatch_then_exit_witness :
    (∀ id ∈ (AddFatalProvider (RegisterProvider NewLogger "a") ["a"]).fatalProviders,
        (lookupAssoc (AddFatalProvider (RegisterProvider NewLogger "a") ["a"]).providers
          id).isSome = true)
      ∧ FatalEvents (AddFatalProvider (RegisterProvider NewLogger "a") ["a"]) ["m"] [] "t" "h"
          = (Event.build (makeMessage "FATAL" ["m"]
                (AddFatalProvider (RegisterProvider NewLogger "a") ["a"]).traceType [] "t" "h")
              :: (AddFatalProvider (RegisterProvider NewLogger "a") ["a"]).fatalProviders.map
                (fun id => Event.sinkCall SinkOp.fatalOp id
                  (makeMessage "FATAL" ["m"]
                    (AddFatalProvider (RegisterProvider NewLogger "a") ["a"]).traceType
                    [] "t" "h")))
            ++ [Event.exitProcess 1]
      ∧ (FatalEvents NewLogger ["m"] [] "t" "h").getLast? = some (Event.exitProcess 1) :=
  ⟨by decide,
    (fatal_dispatch_then_exit (fun f _ => f)
      (AddFatalProvider (RegisterProvider NewLogger "a") ["a"]) ["m"] [] "t" "h" "f" []).1
      (by decide),
    (fatal_dispatch_then_exit (fun f _ => f) NewLogger ["m"] [] "t" "h" "f" []).2.1⟩

/-! ### Stack walk and the location field -/

theorem not_logger_and_testing {d : List Char} (h1 : hasPre loggerPre d = true)
    (h2 : hasPre testingPre d = true) : False := by
  cases d with
  | nil => simp [hasPre, loggerPre] at h1
  | cons c t =>
    simp only [loggerPre, testingPre, hasPre, Bool.and_eq_true, beq_iff_eq] at h1 h2
    exact absurd (h1.1.trans h2.1.symm) (by decide)

theorem walkFrames_eq (stack : List String) (mode : Int) :
    ∀ (n i : Nat),
      walkFrames stack mode n i
        = if mode = TRACE_TYPE_ONE
            then (((examFrom stack i n).takeWhile notBoundaryB).filter notModuleB).take 1
            else ((examFrom stack i n).takeWhile notBoundaryB).filter notModuleB := by
  intro n
  induction n with
  | zero =>
    intro i
    simp only [walkFrames, examFrom, List.takeWhile_nil, List.filter_nil, List.take_nil]
    split <;> rfl
  | succ n ih =>
    intro i
    rw [show examFrom stack i (n + 1) = frameAt stack i :: examFrom stack (i + 1) n from rfl]
    by_cases hl : hasPre loggerPre (frameAt stack i).data = true
    · have hb : notBoundaryB (frameAt stack i) = true := by
        unfold notBoundaryB
        cases htb : hasPre testingPre (frameAt stack i).data
        · rfl
        · exact (not_logger_and_testing hl htb).elim
      have hm : notModuleB (frameAt stack i) = false := by
        unfold notModuleB; rw [hl]; rfl
      have hmneg : ¬ notModuleB (frameAt stack i) = true := by
        rw [hm]; exact Bool.false_ne_true
      have hwalk : walkFrames stack mode (n + 1) i = walkFrames stack mode n (i + 1) := by
        simp only [walkFrames]; rw [if_pos hl]
      have htw : (frameAt stack i :: examFrom stack (i + 1) n).takeWhile notBoundaryB
          = frameAt stack i :: (examFrom stack (i + 1) n).takeWhile notBoundaryB := by
        rw [List.takeWhile_cons, if_pos hb]
      have hfil : (frameAt stack i
            :: (examFrom stack (i + 1) n).takeWhile notBoundaryB).filter notModuleB
          = ((examFrom stack (i + 1) n).takeWhile notBoundaryB).filter notModuleB := by
        rw [List.filter_cons, if_neg hmneg]
      rw [hwalk, ih (i + 1), htw, hfil]
    · by_cases ht : hasPre testingPre (frameAt stack i).data = true
      · have hb : notBoundaryB (frameAt stack i) = false := by
          unfold notBoundaryB; rw [ht]; rfl
        have hbneg : ¬ notBoundaryB (frameAt stack i) = true := by
          rw [hb]; exact Bool.false_ne_true
        have hwalk : walkFrames stack mode (n + 1) i = [] := by
          simp only [walkFrames]; rw [if_neg hl, if_pos ht]
        have htw : (frameAt stack i :: examFrom stack (i + 1) n).takeWhile notBoundaryB
            = [] := by
          rw [List.takeWhile_cons, if_neg hbneg]
        rw [hwalk, htw, List.filter_nil, List.take_nil]
        split <;> rfl
      · have hb : notBoundaryB (frameAt stack i) = true := by
          unfold notBoundaryB
          cases htb : hasPre testingPre (frameAt stack i).data
          · rfl
          · exact absurd htb ht
        have hm : notModuleB (frameAt stack i) = true := by
          unfold notModuleB
          cases hlb : hasPre loggerPre (frameAt stack i).data
          · rfl
          · exact absurd hlb hl
        have htw : (frameAt stack i :: examFrom stack (i + 1) n).takeWhile notBoundaryB
            = frameAt stack i :: (examFrom stack (i + 1) n).takeWhile notBoundaryB := by
          rw [List.takeWhile_cons, if_pos hb]
        have hfil : (frameAt stack i
              :: (examFrom stack (i + 1) n).takeWhile notBoundaryB).filter notModuleB
            = frameAt stack i
              :: ((examFrom stack (i + 1) n).takeWhile notBoundaryB).filter notModuleB := by
          rw [List.filter_cons, if_pos hm]
        rw [htw, hfil]
        by_cases hone : mode = TRACE_TYPE_ONE
        · have hwalk : walkFrames stack mode (n + 1) i = [frameAt stack i] := by
            simp only [walkFrames]; rw [if_neg hl, if_neg ht, if_pos hone]
          rw [hwalk, if_pos hone]
          simp
        · have hwalk : walkFrames stack mode (n + 1) i
              = frameAt stack i :: walkFrames stack mode n (i + 1) := by
            simp only [walkFrames]; rw [if_neg hl, if_neg ht, if_neg hone]
          rw [hwalk, ih (i + 1), if_neg hone, if_neg hone]

theorem visitedFrames_eq_specVisited (stack : List String) (mode : Int) :
    visitedFrames stack mode = specVisited stack mode := by
  unfold visitedFrames specVisited externalVisited
  exact walkFrames_eq stack mode 4 0

theorem frameAt_clean {stack : List String} (hclean : ∀ f ∈ stack, cleanFrame f)
    (i : Nat) : cleanFrame (frameAt stack i) := by
  unfold frameAt
  cases hg : stack[i]? with
  | some f => exact hclean f (List.getElem?_mem hg)
  | none => decide

theorem mem_examFrom {stack : List String} :
    ∀ (n i : Nat) (x : String), x ∈ examFrom stack i n → ∃ j, x = frameAt stack j := by
  intro n
  induction n with
  | zero => intro i x hx; simp [examFrom] at hx
  | succ n ih =>
    intro i x hx
    rw [show examFrom stack i (n + 1) = frameAt stack i :: examFrom stack (i + 1) n from rfl]
      at hx
    rcases List.mem_cons.1 hx with rfl | hx'
    · exact ⟨i, rfl⟩
    · exact ih (i + 1) x hx'

theorem specVisited_clean {stack : List String} (hclean : ∀ f ∈ stack, cleanFrame f)
    (mode : Int) : ∀ x ∈ specVisited stack mode, cleanFrame x := by
  intro x hx
  have hx' : x ∈ externalVisited stack := by
    unfold specVisited at hx
    by_cases hone : mode = TRACE_TYPE_ONE
    · rw [if_pos hone] at hx; exact List.take_subset 1 _ hx
    · rw [if_neg hone] at hx; exact hx
  have hx'' : x ∈ examFrom stack 0 4 := by
    unfold externalVisited at hx'
    exact (List.takeWhile_sublist _).mem (List.mem_of_mem_filter hx')
  obtain ⟨j, rfl⟩ := mem_examFrom 4 0 x hx''
  exact frameAt_clean hclean j

theorem lineReplace_nil : lineReplace [] = [] := by
  simp [lineReplace]

theorem lineReplace_chunk : ∀ (f : List Char), (∀ c ∈ f, c ≠ ' ' ∧ c ≠ '\n') →
    ∀ rest : List Char,
      lineReplace (f ++ ':' :: ' ' :: '\n' :: rest) = f ++ ',' :: ' ' :: lineReplace rest := by
  intro f
  induction f with
  | nil =>
    intro _ rest
    simp only [List.nil_append]
    rw [lineReplace]
    rw [if_pos ⟨rfl, rfl⟩]
    rw [show (' ' :: '\n' :: rest).tail = '\n' :: rest from rfl]
    rw [lineReplace]
    have h1 : ¬(('\n' : Char) = ':' ∧ (rest : List Char).head? = some ' ') :=
      fun hx => absurd hx.1 (by decide)
    have h2 : ¬(('\n' : Char) = ' ') := by decide
    rw [if_neg h1, if_neg h2, if_pos rfl]
  | cons c f' ih =>
    intro hcl rest
    have hc := hcl c (List.mem_cons_self _ _)
    have hcl' : ∀ x ∈ f', x ≠ ' ' ∧ x ≠ '\n' := fun x hx => hcl x (List.mem_cons_of_mem _ hx)
    simp only [List.cons_append]
    rw [lineReplace]
    have hhead : ¬(c = ':' ∧ (f' ++ ':' :: ' ' :: '\n' :: rest).head? = some ' ') := by
      rintro ⟨hc1, hh⟩
      cases f' with
      | nil => simp at hh
      | cons d f'' =>
        simp only [List.cons_append, List.head?_cons, Option.some.injEq] at hh
        exact (hcl' d (List.mem_cons_self _ _)).1 hh
    rw [if_neg hhead, if_neg hc.1, if_neg hc.2]
    rw [ih hcl' rest]

theorem lineReplace_concat : ∀ fs : List String, (∀ f ∈ fs, cleanFrame f) →
    lineReplace (concatAll (fs.map (fun f => f.data ++ [':', ' ', '\n'])))
      = concatAll (fs.map (fun f => f.data ++ [',', ' '])) := by
  intro fs
  induction fs with
  | nil => intro _; exact lineReplace_nil
  | cons f rest ih =>
    intro h
    have hf := h f (List.mem_cons_self _ _)
    have hrest : ∀ g ∈ rest, cleanFrame g := fun g hg => h g (List.mem_cons_of_mem _ hg)
    simp only [List.map_cons, concatAll]
    rw [List.append_assoc]
    rw [show ([':', ' ', '\n'] : List Char)
        ++ concatAll (rest.map (fun g => g.data ++ [':', ' ', '\n']))
        = ':' :: ' ' :: '\n' :: concatAll (rest.map (fun g => g.data ++ [':', ' ', '\n']))
      from rfl]
    rw [lineReplace_chunk f.data (fun c hc => ⟨(hf.2 c hc).1, (hf.2 c hc).2.1⟩)]
    rw [ih hrest]
    simp

theorem concat_sep_eq : ∀ fs : List (List Char), fs ≠ [] →
    concatAll (fs.map (· ++ [',', ' '])) = joinSep [',', ' '] fs ++ [',', ' '] := by
  intro fs
  induction fs with
  | nil => intro h; exact absurd rfl h
  | cons f rest ih =>
    intro _
    cases rest with
    | nil => simp [concatAll, joinSep]
    | cons g rest' =>
      simp only [List.map_cons, concatAll, joinSep] at ih ⊢
      rw [ih (by simp)]
      simp [List.append_assoc]

theorem joinSep_last_clean : ∀ fs : List String, fs ≠ [] → (∀ f ∈ fs, cleanFrame f) →
    ∃ c t, (joinSep [',', ' '] (fs.map (·.data))).reverse = c :: t ∧ c ≠ ',' ∧ c ≠ ' ' := by
  intro fs
  induction fs with
  | nil => intro h; exact absurd rfl h
  | cons f rest ih =>
    intro _ h
    have hf := h f (List.mem_cons_self _ _)
    cases rest with
    | nil =>
      simp only [List.map_cons, List.map_nil, joinSep]
      cases hr : f.data.reverse with
      | nil => exact absurd (List.reverse_eq_nil_iff.1 hr) hf.1
      | cons c t =>
        have hc : c ∈ f.data := List.mem_reverse.1 (hr ▸ List.mem_cons_self c t)
        exact ⟨c, t, rfl, (hf.2 c hc).2.2, (hf.2 c hc).1⟩
    | cons g rest' =>
      have hrest : ∀ x ∈ g :: rest', cleanFrame x := fun x hx => h x (List.mem_cons_of_mem _ hx)
      obtain ⟨c, t, hrev, hc1, hc2⟩ := ih (by simp) hrest
      simp only [List.map_cons] at hrev
      refine ⟨c, t ++ ([' ', ','] ++ f.data.reverse), ?_, hc1, hc2⟩
      simp only [List.map_cons, joinSep]
      rw [List.reverse_append, List.reverse_append]
      rw [show ([',', ' '] : List Char).reverse = [' ', ','] from rfl]
      rw [hrev]
      simp [List.append_assoc]

theorem trimRight_concat_sep (fs : List String) (h : ∀ f ∈ fs, cleanFrame f) :
    trimRightCS (concatAll (fs.map (fun f => f.data ++ [',', ' '])))
      = joinSep [',', ' '] (fs.map (·.data)) := by
  cases fs with
  | nil => rfl
  | cons f rest =>
    have hne : (f :: rest : List String) ≠ [] := by simp
    have hmap : (f :: rest).map (fun g => g.data ++ ([',', ' '] : List Char))
        = ((f :: rest).map (·.data)).map (· ++ [',', ' ']) := by
      rw [List.map_map]; rfl
    rw [hmap, concat_sep_eq _ (by simp)]
    obtain ⟨c, t, hrev, hc1, hc2⟩ := joinSep_last_clean (f :: rest) hne h
    unfold trimRightCS
    rw [List.reverse_append, hrev]
    rw [show ([',', ' '] : List Char).reverse = [' ', ','] from rfl]
    have hdrop : List.dropWhile (fun x => x = ',' || x = ' ') ([' ', ','] ++ c :: t)
        = c :: t := by
      simp [List.dropWhile_cons, hc1, hc2]
    rw [hdrop, ← hrev, List.reverse_reverse]

theorem makeLine_eq (stack : List String) (mode : Int)
    (hclean : ∀ f ∈ stack, cleanFrame f) :
    makeLine stack mode = commaJoin (specVisited stack mode) := by
  unfold makeLine commaJoin
  rw [visitedFrames_eq_specVisited]
  rw [lineReplace_concat _ (specVisited_clean hclean mode)]
  rw [trimRight_concat_sep _ (specVisited_clean hclean mode)]

/-- Claim C6 (amended): the location field lists the visited non-module frames
comma-separated, innermost first, where the walk examines at most the first four
frames above the builder (depths beyond the stack read as "???:0"): in SINGLE mode it
is at most one entry — the first non-module frame among those examined before any
boundary frame — and in FULL mode it is every non-module frame among the examined
ones up to the boundary frame. -/
theorem makeLine_trace_modes (stack : List String) (mode : Int)
    (hclean : ∀ f ∈ stack, cleanFrame f) :
    makeLine stack mode = commaJoin (specVisited stack mode)
      ∧ (specVisited stack TRACE_TYPE_ONE).length ≤ 1 := by
  refine ⟨makeLine_eq stack mode hclean, ?_⟩
  unfold specVisited
  rw [if_pos rfl]
  exact List.length_take_le 1 _

/-- Witness for C6 (amended) at a concrete two-frame stack in FULL mode. -/
theorem makeLine_trace_modes_witness :
    (∀ f ∈ ["a.go:1", "b.go:2"], cleanFrame f)
      ∧ makeLine ["a.go:1", "b.go:2"] TRACE_TYPE_ANY
          = commaJoin (specVisited ["a.go:1", "b.go:2"] TRACE_TYPE_ANY) :=
  ⟨by decide, (makeLine_trace_modes ["a.go:1", "b.go:2"] TRACE_TYPE_ANY (by decide)).1⟩

/-- Claim C6 counterexample: with five external frames and FULL trace mode the loop
bound `for i := 2; i < 6` examines only four frames, so the location field omits the
fifth external frame, contradicting "every external frame up to the boundary frame or
until the stack is exhausted". -/
theorem makeLine_full_mode_counterexample :
    makeLine ["a.go:1", "b.go:2", "c.go:3", "d.go:4", "e.go:5"] TRACE_TYPE_ANY
        = "a.go:1, b.go:2, c.go:3, d.go:4"
      ∧ makeLine ["a.go:1", "b.go:2", "c.go:3", "d.go:4", "e.go:5"] TRACE_TYPE_ANY
          ≠ "a.go:1, b.go:2, c.go:3, d.go:4, e.go:5" := by
  have h := makeLine_eq ["a.go:1", "b.go:2", "c.go:3", "d.go:4", "e.go:5"]
    TRACE_TYPE_ANY (by decide)
  rw [h]
  constructor
  · decide
  · decide

end LoggerModel
